import Mathlib

/-!
Shallow embedding of the grid model and damage-to-draw-command translation of
src/editor/window.rs (the Window methods operating on the character grid),
together with proofs of the spec's testable properties about them.

Machine integers (u64) are modelled as Nat; the signed scroll deltas (i64) as
Int, with the u64 casts of the source made explicit where they occur.
-/

namespace Neovide

/-- A grid cell: one grapheme cluster (possibly empty, marking the right half
of a double-width glyph) plus an optional shared style handle.  window.rs
stores (String, Option(Arc Style)); the style payload is opaque to this code
and compared by value, so it stays a type parameter here. -/
abbrev Cell (Style : Type) := String × Option Style

/-- Modelled from the spec: CharacterGrid (src/editor/grid.rs is not among the
given sources).  Spec sections 3 and 4.1: a dense width x height array of
cells; the storage is represented as a total function on coordinates, and the
bounds-checked accessors below return none out of bounds. -/
structure CharacterGrid (Style : Type) where
  width : Nat
  height : Nat
  cells : Nat → Nat → Cell Style

namespace CharacterGrid

variable {Style : Type}

/-- Modelled from the spec (4.1): get(x,y) is none out of bounds. -/
def get_cell (g : CharacterGrid Style) (x y : Nat) : Option (Cell Style) :=
  if x < g.width ∧ y < g.height then some (g.cells x y) else none

/-- Modelled from the spec (4.1): get_mut(x,y) followed by an assignment; out
of bounds the lookup is none, so the write is dropped. -/
def set_cell (g : CharacterGrid Style) (x y : Nat) (v : Cell Style) :
    CharacterGrid Style :=
  if x < g.width ∧ y < g.height then
    { g with cells := fun a b => if a = x ∧ b = y then v else g.cells a b }
  else g

/-- Modelled from the spec (4.1): row(y), none out of bounds. -/
def row (g : CharacterGrid Style) (y : Nat) : Option (List (Cell Style)) :=
  if y < g.height then some ((List.range g.width).map fun x => g.cells x y)
  else none

@[simp] theorem set_cell_width (g : CharacterGrid Style) (x y : Nat)
    (v : Cell Style) : (g.set_cell x y v).width = g.width := by
  unfold set_cell; split <;> rfl

@[simp] theorem set_cell_height (g : CharacterGrid Style) (x y : Nat)
    (v : Cell Style) : (g.set_cell x y v).height = g.height := by
  unfold set_cell; split <;> rfl

theorem get_cell_eq_some (g : CharacterGrid Style) (x y : Nat)
    (hx : x < g.width) (hy : y < g.height) :
    g.get_cell x y = some (g.cells x y) := by
  unfold get_cell; rw [if_pos ⟨hx, hy⟩]

theorem get_set_cell_ne (g : CharacterGrid Style) (x y a b : Nat)
    (v : Cell Style) (h : ¬(a = x ∧ b = y)) :
    (g.set_cell x y v).get_cell a b = g.get_cell a b := by
  simp only [set_cell, get_cell]
  split
  · simp [h]
  · rfl

theorem get_set_cell_self (g : CharacterGrid Style) (x y : Nat)
    (v : Cell Style) (hx : x < g.width) (hy : y < g.height) :
    (g.set_cell x y v).get_cell x y = some v := by
  simp [set_cell, get_cell, hx, hy]

end CharacterGrid

/-- Modelled from the spec (6): one protocol cell update, as carried by
bridge::GridLineCell.  The text is kept pre-segmented into grapheme clusters
(window.rs splits the incoming string with an external unicode segmentation
library); the empty list is the empty text. -/
structure GridLineCell where
  text : List String
  highlight_id : Option Nat
  «repeat» : Option Nat

variable {Style : Type}

/-- Style resolution of Window::modify_grid (window.rs:124-128): explicit id 0
is no style; another explicit id is looked up in the style table (none when
absent); an omitted id reuses the carried previous style. -/
def resolve_style (highlight_id : Option Nat) (defined_styles : Nat → Option Style)
    (previous_style : Option Style) : Option Style :=
  match highlight_id with
  | some 0 => none
  | some style_id => defined_styles style_id
  | none => previous_style

/-- str::repeat on a grapheme-segmented text (window.rs:138). -/
def repeatText (text : List String) : Nat → List String
  | 0 => []
  | n + 1 => text ++ repeatText text n

/-- The cell-writing tail of Window::modify_grid (window.rs:142-154): an empty
text writes one blank-text cell at the cursor and advances it by one; otherwise
one grapheme is written per column, the cursor advancing per grapheme.  Writes
past the grid bounds are dropped (set_cell), but the cursor still advances. -/
def write_cells (g : CharacterGrid Style) (row_index : Nat) (column_pos : Nat)
    (text : List String) (style : Option Style) : CharacterGrid Style × Nat :=
  if text = [] then
    (g.set_cell column_pos row_index ("", style), column_pos + 1)
  else
    text.foldl
      (fun (acc : CharacterGrid Style × Nat) character =>
        (acc.1.set_cell acc.2 row_index (character, style), acc.2 + 1))
      (g, column_pos)

/-- Window::modify_grid (window.rs:115-157).  Returns the updated grid, the
advanced column cursor, and the carried style.  A repeat of zero returns
before touching anything (window.rs:135-137). -/
def modify_grid (g : CharacterGrid Style) (row_index : Nat) (column_pos : Nat)
    (cell : GridLineCell) (defined_styles : Nat → Option Style)
    (previous_style : Option Style) :
    CharacterGrid Style × Nat × Option Style :=
  let style := resolve_style cell.highlight_id defined_styles previous_style
  match cell.repeat with
  | some 0 => (g, column_pos, previous_style)
  | some (n + 1) =>
    let r := write_cells g row_index column_pos (repeatText cell.text (n + 1)) style
    (r.1, r.2, style)
  | none =>
    let r := write_cells g row_index column_pos cell.text style
    (r.1, r.2, style)

/-- A derived renderable run (renderer::LineFragment): concatenated grapheme
text, origin column, row, width in columns, and the shared style. -/
structure LineFragment (Style : Type) where
  text : String
  window_left : Nat
  window_top : Nat
  width : Nat
  style : Option Style

/-- The scan loop of Window::build_line_fragment (window.rs:168-184), running
over the row suffix that starts at the scan position (the Rust code indexes
possible_end_index over start..width of a row of length width).  It stops
before a cell whose style differs, and stops just after a cell whose text is
empty, counting that cell's column into the width but adding no text. -/
def build_loop [DecidableEq Style] (style : Option Style) :
    List (Cell Style) → String → Nat → String × Nat
  | [], text, width => (text, width)
  | c :: rest, text, width =>
    if c.2 ≠ style then (text, width)
    else if c.1 = "" then (text, width + 1)
    else build_loop style rest (text ++ c.1) (width + 1)

/-- Window::build_line_fragment (window.rs:161-195).  Returns the next scan
start (start + width) and the fragment built from the given start.  The Rust
code unwraps row(row_index) and indexes row[start]; both are total here via
defaults that are unreachable at the in-bounds call sites the claims are
about. -/
def build_line_fragment [DecidableEq Style] (g : CharacterGrid Style)
    (row_index start : Nat) : Nat × LineFragment Style :=
  let row := (g.row row_index).getD []
  let style := (row.getD start ("", none)).2
  let r := build_loop style (row.drop start) "" 0
  (start + r.2, ⟨r.1, start, row_index, r.2, style⟩)

/-- The fragment-collection loop of Window::redraw_line (window.rs:200-209),
with an explicit iteration bound: each pass from an in-bounds start advances
the start by at least one column, so for an in-bounds row a fuel of
grid width covers the whole Rust while loop. -/
def line_fragments_go [DecidableEq Style] (g : CharacterGrid Style) (row : Nat) :
    Nat → Nat → List (LineFragment Style)
  | 0, _ => []
  | fuel + 1, current_start =>
    if current_start < g.width then
      (build_line_fragment g row current_start).2 ::
        line_fragments_go g row fuel (build_line_fragment g row current_start).1
    else []

/-- The fragments Window::redraw_line derives for one row and sends as a
single DrawLine command (window.rs:200-209). -/
def line_fragments [DecidableEq Style] (g : CharacterGrid Style) (row : Nat) :
    List (LineFragment Style) :=
  line_fragments_go g row g.width 0

/-- The outbound draw commands of renderer::WindowDrawCommand that the
modelled operations emit.  Only the DrawLine variant is produced by the
operations modelled here; the Scroll/Position/visibility variants carry their
inputs verbatim and are not needed by the claims. -/
inductive WindowDrawCommand (Style : Type) where
  | DrawLine (fragments : List (LineFragment Style))

/-- The update fold of Window::draw_grid_line (window.rs:220-229): the column
cursor starts at column_start and the carried style at none, each protocol
cell being applied in order through modify_grid. -/
def apply_updates (g : CharacterGrid Style) (row : Nat) (column_start : Nat)
    (cells : List GridLineCell) (defined_styles : Nat → Option Style) :
    CharacterGrid Style × Nat × Option Style :=
  cells.foldl
    (fun acc c => modify_grid acc.1 row acc.2.1 c defined_styles acc.2.2)
    (g, column_start, none)

/-- Window::draw_grid_line (window.rs:211-245).  In bounds it applies the
updates and then re-emits DrawLine for the row below (if any), the row, and
the row above (if any), bottom to top; out of bounds it only logs a warning,
mutating nothing and emitting nothing. -/
def draw_grid_line [DecidableEq Style] (g : CharacterGrid Style) (row : Nat)
    (column_start : Nat) (cells : List GridLineCell)
    (defined_styles : Nat → Option Style) :
    CharacterGrid Style × List (WindowDrawCommand Style) :=
  if row < g.height then
    let r := apply_updates g row column_start cells defined_styles
    (r.1,
      (if row < g.height - 1 then
        [WindowDrawCommand.DrawLine (line_fragments r.1 (row + 1))]
      else []) ++
      [WindowDrawCommand.DrawLine (line_fragments r.1 row)] ++
      (if 0 < row then
        [WindowDrawCommand.DrawLine (line_fragments r.1 (row - 1))]
      else []))
  else (g, [])

/-- The list of values a Rust i64 range a..b yields, in order. -/
def intRange (a b : Int) : List Int :=
  (List.range (b - a).toNat).map fun (i : Nat) => a + (i : Int)

/-- The row iteration order of Window::scroll_region (window.rs:256-264):
ascending over (top+rows)..bottom when rows > 0, else descending over
top..(bottom+rows). -/
def yIter (top bottom : Nat) (rows : Int) : List Int :=
  if 0 < rows then intRange ((top : Int) + rows) (bottom : Int)
  else (intRange (top : Int) ((bottom : Int) + rows)).reverse

/-- The column iteration order of Window::scroll_region (window.rs:282-288):
ascending over (left+cols)..right when cols > 0, else descending over
left..(right+cols). -/
def xIter (left right : Nat) (cols : Int) : List Int :=
  if 0 < cols then intRange ((left : Int) + cols) (right : Int)
  else (intRange (left : Int) ((right : Int) + cols)).reverse

/-- The inner loop body of Window::scroll_region (window.rs:290-301) on the
source coordinate pair p = (x, y): read the source cell at (x, y); if the
read succeeds (source inside the grid), write its value to the destination
(x - cols, y - rows), the write being dropped when the destination is outside
the grid (set_cell); otherwise leave the grid alone.  The u64 casts of the
source are the toNat calls; every value cast is nonnegative on the iteration
ranges scroll_region uses. -/
def scrollStep (rows cols : Int) (g : CharacterGrid Style) (p : Int × Int) :
    CharacterGrid Style :=
  match g.get_cell p.1.toNat p.2.toNat with
  | some cell_data => g.set_cell (p.1 - cols).toNat (p.2 - rows).toNat cell_data
  | none => g

/-- Window::scroll_region (window.rs:247-304): the in-place copy it performs
on the grid storage.  Rows iterate in yIter order, skipping rows whose
destination row fails the explicit bounds check (window.rs:281); columns
iterate in xIter order with the scrollStep body.  The
WindowDrawCommand::Scroll emission (window.rs:266-273) carries the arguments
verbatim to the sink and does not touch the grid, so it is not part of this
state transformer. -/
def scroll_region (g : CharacterGrid Style) (top bottom left right : Nat)
    (rows cols : Int) : CharacterGrid Style :=
  (yIter top bottom rows).foldl
    (fun g y =>
      if 0 ≤ y - rows ∧ y - rows < (g.height : Int) then
        (xIter left right cols).foldl (fun g x => scrollStep rows cols g (x, y)) g
      else g)
    g

/-- The scroll step with the read taken from a fixed snapshot grid gr while
the write accumulates on gw.  When no earlier write of the fold clobbers a
later read, the in-place fold of scrollStep agrees with folding this. -/
def pureStep (gr : CharacterGrid Style) (rows cols : Int)
    (gw : CharacterGrid Style) (p : Int × Int) : CharacterGrid Style :=
  match gr.get_cell p.1.toNat p.2.toNat with
  | some cell_data => gw.set_cell (p.1 - cols).toNat (p.2 - rows).toNat cell_data
  | none => gw

/-- Folding pureStep: all reads from the snapshot gr. -/
def pureFold (gr : CharacterGrid Style) (rows cols : Int)
    (ps : List (Int × Int)) (gw : CharacterGrid Style) : CharacterGrid Style :=
  ps.foldl (pureStep gr rows cols) gw

/-- The source coordinates scroll_region visits, flattened in visit order:
rows in yIter order that pass the destination-row bounds check, columns in
xIter order within each row. -/
def scrollPairs (top bottom left right : Nat) (rows cols : Int) (height : Nat) :
    List (Int × Int) :=
  ((yIter top bottom rows).filter fun y =>
      decide (0 ≤ y - rows ∧ y - rows < (height : Int))).flatMap
    fun y => (xIter left right cols).map fun x => (x, y)

/-- The destination a scroll with the given deltas writes for source p. -/
def writeCoord (rows cols : Int) (p : Int × Int) : Nat × Nat :=
  ((p.1 - cols).toNat, (p.2 - rows).toNat)

/-- The grid coordinate a scroll reads for source p. -/
def readCoord (p : Int × Int) : Nat × Nat :=
  (p.1.toNat, p.2.toNat)

/-- Concatenated texts of n consecutive cells of one row starting at column
s; used to state what text a fragment collects. -/
def rowText (g : CharacterGrid Style) (row s : Nat) : Nat → String
  | 0 => ""
  | n + 1 => (g.cells s row).1 ++ rowText g row (s + 1) n

/-- Window::get_cursor_grid_cell (window.rs:66-82): text and style of the cell
under the cursor (a single space, unstyled, when out of bounds), plus the
double-width flag read off the cell immediately to the right. -/
def get_cursor_grid_cell (g : CharacterGrid Style) (window_left window_top : Nat) :
    String × Option Style × Bool :=
  let grid_cell :=
    match g.get_cell window_left window_top with
    | some (character, style) => (character, style)
    | none => (" ", none)
  let double_width :=
    match g.get_cell (window_left + 1) window_top with
    | some (character, _) => character = ""
    | none => false
  (grid_cell.1, grid_cell.2, double_width)

/-! ## Basic lemmas -/

theorem repeatText_nil : ∀ n, repeatText ([] : List String) n = []
  | 0 => rfl
  | n + 1 => by simp [repeatText, repeatText_nil n]

/-! ## Lemmas about the fragment scan loop -/

theorem build_loop_snd_ge {Style : Type} [DecidableEq Style]
    (style : Option Style) :
    ∀ (cs : List (Cell Style)) (t : String) (w : Nat),
      w ≤ (build_loop style cs t w).2
  | [], _, w => le_refl w
  | c :: rest, t, w => by
    unfold build_loop
    split
    · exact le_refl w
    · split
      · omega
      · exact le_trans (by omega) (build_loop_snd_ge style rest (t ++ c.1) (w + 1))

theorem build_loop_snd_le {Style : Type} [DecidableEq Style]
    (style : Option Style) :
    ∀ (cs : List (Cell Style)) (t : String) (w : Nat),
      (build_loop style cs t w).2 ≤ w + cs.length
  | [], _, w => by simp [build_loop]
  | c :: rest, t, w => by
    unfold build_loop
    split
    · simp
    · split
      · simp only [List.length_cons]
        omega
      · have h := build_loop_snd_le style rest (t ++ c.1) (w + 1)
        simp only [List.length_cons]
        omega

theorem build_loop_cons_pos {Style : Type} [DecidableEq Style]
    (style : Option Style) (c : Cell Style) (rest : List (Cell Style))
    (t : String) (w : Nat) (hc : c.2 = style) :
    w + 1 ≤ (build_loop style (c :: rest) t w).2 := by
  unfold build_loop
  rw [if_neg (by simp [hc])]
  split
  · omega
  · exact build_loop_snd_ge style rest (t ++ c.1) (w + 1)

theorem build_loop_all_match {Style : Type} [DecidableEq Style]
    (style : Option Style) :
    ∀ (cs : List (Cell Style)) (t : String) (w : Nat),
      (∀ c ∈ cs, c.2 = style ∧ c.1 ≠ "") →
      (build_loop style cs t w).2 = w + cs.length
  | [], _, w, _ => by simp [build_loop]
  | c :: rest, t, w, h => by
    obtain ⟨hc, hne⟩ := h c (by simp)
    unfold build_loop
    rw [if_neg (by simp [hc]), if_neg hne]
    rw [build_loop_all_match style rest (t ++ c.1) (w + 1)
      (fun d hd => h d (by simp [hd]))]
    simp only [List.length_cons]
    omega

theorem row_list_eq {Style : Type} (g : CharacterGrid Style) (row : Nat)
    (hrow : row < g.height) :
    (g.row row).getD [] = (List.range g.width).map fun x => g.cells x row := by
  simp [CharacterGrid.row, hrow]

theorem row_list_length {Style : Type} (g : CharacterGrid Style) (row : Nat)
    (hrow : row < g.height) : ((g.row row).getD []).length = g.width := by
  rw [row_list_eq g row hrow]
  simp

theorem row_list_getElem {Style : Type} (g : CharacterGrid Style) (row x : Nat)
    (hrow : row < g.height) (hx : x < ((g.row row).getD []).length) :
    ((g.row row).getD [])[x] = g.cells x row := by
  simp only [row_list_eq g row hrow, List.getElem_map, List.getElem_range]

theorem build_line_fragment_fst {Style : Type} [DecidableEq Style]
    (g : CharacterGrid Style) (row start : Nat) :
    (build_line_fragment g row start).1 =
      start + (build_line_fragment g row start).2.width := rfl

theorem build_line_fragment_left {Style : Type} [DecidableEq Style]
    (g : CharacterGrid Style) (row start : Nat) :
    (build_line_fragment g row start).2.window_left = start := rfl

theorem build_line_fragment_bounds {Style : Type} [DecidableEq Style]
    (g : CharacterGrid Style) (row start : Nat) (hrow : row < g.height)
    (hs : start < g.width) :
    start + 1 ≤ (build_line_fragment g row start).1 ∧
      (build_line_fragment g row start).1 ≤ g.width := by
  have hlen := row_list_length g row hrow
  have hslen : start < ((g.row row).getD []).length := by omega
  have hdrop := List.drop_eq_getElem_cons hslen
  have hgetD : ((g.row row).getD []).getD start ("", none) =
      ((g.row row).getD [])[start] :=
    List.getD_eq_getElem _ _ hslen
  unfold build_line_fragment
  simp only
  constructor
  · have := build_loop_cons_pos (((g.row row).getD []).getD start ("", none)).2
      (((g.row row).getD [])[start]) (((g.row row).getD []).drop (start + 1))
      "" 0 (by rw [hgetD])
    rw [← hdrop] at this
    omega
  · have := build_loop_snd_le (((g.row row).getD []).getD start ("", none)).2
      (((g.row row).getD []).drop start) "" 0
    have hdl : (((g.row row).getD []).drop start).length =
        ((g.row row).getD []).length - start := List.length_drop _ _
    omega

theorem line_fragments_go_out {Style : Type} [DecidableEq Style]
    (g : CharacterGrid Style) (row : Nat) :
    ∀ (fuel s : Nat), g.width ≤ s → line_fragments_go g row fuel s = []
  | 0, _, _ => rfl
  | fuel + 1, s, h => by
    unfold line_fragments_go
    rw [if_neg (by omega)]

theorem line_fragments_go_sum {Style : Type} [DecidableEq Style]
    (g : CharacterGrid Style) (row : Nat) (hrow : row < g.height) :
    ∀ (fuel s : Nat), g.width ≤ s + fuel →
      ((line_fragments_go g row fuel s).map (fun f => f.width)).sum =
        g.width - s := by
  intro fuel
  induction fuel with
  | zero =>
    intro s h
    simp [line_fragments_go]
    omega
  | succ n ih =>
    intro s h
    by_cases hs : s < g.width
    · have hb := build_line_fragment_bounds g row s hrow hs
      have hw := build_line_fragment_fst g row s
      unfold line_fragments_go
      rw [if_pos hs]
      simp only [List.map_cons, List.sum_cons]
      rw [ih _ (by omega)]
      omega
    · rw [line_fragments_go_out g row _ s (by omega)]
      simp
      omega

theorem line_fragments_go_width_pos {Style : Type} [DecidableEq Style]
    (g : CharacterGrid Style) (row : Nat) (hrow : row < g.height) :
    ∀ (fuel s : Nat), ∀ f ∈ line_fragments_go g row fuel s, 1 ≤ f.width := by
  intro fuel
  induction fuel with
  | zero =>
    intro s f hf
    simp [line_fragments_go] at hf
  | succ n ih =>
    intro s f hf
    by_cases hs : s < g.width
    · unfold line_fragments_go at hf
      rw [if_pos hs] at hf
      rcases List.mem_cons.mp hf with hf | hf
      · have hb := build_line_fragment_bounds g row s hrow hs
        have hw := build_line_fragment_fst g row s
        subst hf
        omega
      · exact ih _ f hf
    · rw [line_fragments_go_out g row _ s (by omega)] at hf
      simp at hf

theorem line_fragments_go_cons {Style : Type} [DecidableEq Style]
    (g : CharacterGrid Style) (row fuel s : Nat) (hs : s < g.width) :
    line_fragments_go g row (fuel + 1) s =
      (build_line_fragment g row s).2 ::
        line_fragments_go g row fuel (build_line_fragment g row s).1 := by
  conv_lhs => unfold line_fragments_go
  rw [if_pos hs]

theorem line_fragments_go_adjacent {Style : Type} [DecidableEq Style]
    (g : CharacterGrid Style) (row : Nat) (hrow : row < g.height) :
    ∀ (fuel s : Nat), g.width ≤ s + fuel →
      ∀ (i : Nat) (f1 f2 : LineFragment Style),
        (line_fragments_go g row fuel s)[i]? = some f1 →
        (line_fragments_go g row fuel s)[i + 1]? = some f2 →
        f2.window_left = f1.window_left + f1.width := by
  intro fuel
  induction fuel with
  | zero =>
    intro s _ i f1 f2 hf1 _
    simp [line_fragments_go] at hf1
  | succ n ih =>
    intro s hfuel i f1 f2 hf1 hf2
    by_cases hs : s < g.width
    · have hb := build_line_fragment_bounds g row s hrow hs
      have hw := build_line_fragment_fst g row s
      rw [line_fragments_go_cons g row n s hs] at hf1 hf2
      match i with
      | 0 =>
        rw [List.getElem?_cons_zero] at hf1
        rw [List.getElem?_cons_succ, List.getElem?_eq_some_iff] at hf2
        obtain ⟨hlen1, hget2⟩ := hf2
        have hs2 : (build_line_fragment g row s).1 < g.width := by
          by_contra hcon
          rw [line_fragments_go_out g row n _ (by omega)] at hlen1
          simp at hlen1
        have hn : ∃ m, n = m + 1 := by
          match n, hlen1 with
          | m + 1, _ => exact ⟨m, rfl⟩
          | 0, h0 => simp [line_fragments_go] at h0
        obtain ⟨m, rfl⟩ := hn
        have hget2' : (line_fragments_go g row (m + 1)
              (build_line_fragment g row s).1)[0] =
            (build_line_fragment g row (build_line_fragment g row s).1).2 := by
          simp only [line_fragments_go_cons g row m _ hs2,
            List.getElem_cons_zero]
        rw [hget2'] at hget2
        obtain rfl : f1 = (build_line_fragment g row s).2 :=
          (Option.some.injEq _ _).mp hf1.symm ▸ (Option.some.inj hf1).symm
        rw [← hget2, build_line_fragment_left, build_line_fragment_left]
        omega
      | j + 1 =>
        rw [List.getElem?_cons_succ] at hf1 hf2
        exact ih (build_line_fragment g row s).1 (by omega) j f1 f2 hf1 hf2
    · rw [line_fragments_go_out g row _ s (by omega)] at hf1
      simp at hf1

/-! ## C3: the fragment sequence partitions the row -/

/-- Claim C3: for any row inside the grid, the derived fragment sequence has
no zero-width fragment, consecutive fragments are adjacent (each starts right
after the previous one's span), and the widths sum to the grid width. -/
theorem line_fragments_partition {Style : Type} [DecidableEq Style]
    (g : CharacterGrid Style) (row : Nat) (hrow : row < g.height) :
    (∀ f ∈ line_fragments g row, f.width ≠ 0) ∧
    (∀ (i : Nat) (f1 f2 : LineFragment Style),
        (line_fragments g row)[i]? = some f1 →
        (line_fragments g row)[i + 1]? = some f2 →
        f2.window_left = f1.window_left + f1.width) ∧
    ((line_fragments g row).map (fun f => f.width)).sum = g.width := by
  refine ⟨?_, ?_, ?_⟩
  · intro f hf
    have := line_fragments_go_width_pos g row hrow g.width 0 f hf
    omega
  · exact line_fragments_go_adjacent g row hrow g.width 0 (by omega)
  · have := line_fragments_go_sum g row hrow g.width 0 (by omega)
    simpa [line_fragments] using this

/-- Witness: the partition property on a concrete row containing a
double-width glyph, its continuation cell, and a second run. -/
theorem line_fragments_partition_witness :
    (0 : Nat) <
      (⟨3, 1, fun x _ =>
          (if x = 0 then "W" else if x = 1 then "" else "z", some 5)⟩ :
        CharacterGrid Nat).height ∧
    ((line_fragments
          (⟨3, 1, fun x _ =>
              (if x = 0 then "W" else if x = 1 then "" else "z", some 5)⟩ :
            CharacterGrid Nat) 0).map (fun f => f.width)).sum =
      (⟨3, 1, fun x _ =>
          (if x = 0 then "W" else if x = 1 then "" else "z", some 5)⟩ :
        CharacterGrid Nat).width :=
  ⟨by decide, (line_fragments_partition _ 0 (by decide)).2.2⟩

/-! ## C2: an all-blank row -/

/-- Counterexample to claim C2 as stated: with the spec's own definition of a
blank cell (empty text, no style), an all-blank row of width 2 yields TWO
fragments of width 1, not one fragment of width 2 — build_line_fragment ends
a fragment immediately after every empty-text cell. -/
theorem empty_text_row_not_single_fragment :
    (0 : Nat) < (⟨2, 1, fun _ _ => ("", none)⟩ : CharacterGrid Nat).width ∧
    (∀ x, x < (⟨2, 1, fun _ _ => ("", none)⟩ : CharacterGrid Nat).width →
      ∀ y, y < (⟨2, 1, fun _ _ => ("", none)⟩ : CharacterGrid Nat).height →
        (⟨2, 1, fun _ _ => ("", none)⟩ : CharacterGrid Nat).cells x y =
          ("", none)) ∧
    (line_fragments (⟨2, 1, fun _ _ => ("", none)⟩ : CharacterGrid Nat) 0).map
        (fun f => (f.window_left, f.width)) ≠
      [(0, (⟨2, 1, fun _ _ => ("", none)⟩ : CharacterGrid Nat).width)] := by
  decide

/-- Claim C2 (amended): a row whose every cell is the actual blank of the
grid — a single space with no style — yields exactly one fragment with origin
column 0 and width equal to the grid width. -/
theorem blank_space_row_single_fragment {Style : Type} [DecidableEq Style]
    (g : CharacterGrid Style) (row : Nat) (hrow : row < g.height)
    (hw : 0 < g.width)
    (hcells : ∀ x, x < g.width → g.cells x row = (" ", none)) :
    (line_fragments g row).map (fun f => (f.window_left, f.width)) =
      [(0, g.width)] := by
  have hlen := row_list_length g row hrow
  have h0len : 0 < ((g.row row).getD []).length := by omega
  have hall : ∀ c ∈ (g.row row).getD [], c.2 = (none : Option Style) ∧ c.1 ≠ "" := by
    intro c hc
    rw [row_list_eq g row hrow] at hc
    obtain ⟨x, hx, rfl⟩ := List.mem_map.mp hc
    rw [hcells x (List.mem_range.mp hx)]
    exact ⟨rfl, by simp⟩
  have hgetD : ((g.row row).getD []).getD 0 ("", none) =
      ((g.row row).getD [])[0] := List.getD_eq_getElem _ _ h0len
  have hcell0 : ((g.row row).getD [])[0] = g.cells 0 row :=
    row_list_getElem g row 0 hrow h0len
  have hstyle : (((g.row row).getD []).getD 0 ("", none)).2 = none := by
    rw [hgetD, hcell0, hcells 0 hw]
  have hbl : (build_loop (((g.row row).getD []).getD 0 ("", none)).2
      (((g.row row).getD []).drop 0) "" 0).2 = g.width := by
    rw [hstyle]
    rw [build_loop_all_match none (((g.row row).getD []).drop 0) "" 0
      (by intro c hc; exact hall c (List.mem_of_mem_drop hc))]
    simp [hlen]
  have hfst : (build_line_fragment g row 0).1 = g.width := by
    unfold build_line_fragment
    simp only
    omega
  have hwidth : (build_line_fragment g row 0).2.width = g.width := by
    have := build_line_fragment_fst g row 0
    omega
  obtain ⟨k, hk⟩ : ∃ k, g.width = k + 1 := ⟨g.width - 1, by omega⟩
  unfold line_fragments
  rw [hk, line_fragments_go_cons g row k 0 (by omega)]
  rw [line_fragments_go_out g row k _ (by omega)]
  simp [build_line_fragment_left, hwidth, hk]

/-- Witness: the amended all-blank behavior on a concrete 3-wide grid of
spaces. -/
theorem blank_space_row_single_fragment_witness :
    (0 : Nat) < (⟨3, 1, fun _ _ => (" ", none)⟩ : CharacterGrid Nat).height ∧
    (line_fragments (⟨3, 1, fun _ _ => (" ", none)⟩ : CharacterGrid Nat) 0).map
        (fun f => (f.window_left, f.width)) =
      [(0, (⟨3, 1, fun _ _ => (" ", none)⟩ : CharacterGrid Nat).width)] :=
  ⟨by decide,
    blank_space_row_single_fragment _ 0 (by decide) (by decide)
      (by intro x _; rfl)⟩

/-! ## C6: double-width glyphs end fragments after the continuation cell -/

theorem build_loop_scan {Style : Type} [DecidableEq Style]
    (g : CharacterGrid Style) (row c : Nat) (st : Option Style)
    (hrow : row < g.height) (hc : c + 1 < g.width)
    (hcont1 : (g.cells (c + 1) row).1 = "")
    (hcont2 : (g.cells (c + 1) row).2 = st) :
    ∀ (n j : Nat) (t : String) (w : Nat), j + n = c + 1 →
      (∀ k, j ≤ k → k ≤ c → (g.cells k row).1 ≠ "" ∧ (g.cells k row).2 = st) →
      build_loop st (((g.row row).getD []).drop j) t w =
        (t ++ rowText g row j n, w + (n + 1)) := by
  intro n
  induction n with
  | zero =>
    intro j t w hj _
    have hj' : j = c + 1 := by omega
    subst hj'
    have hlen := row_list_length g row hrow
    have hjlen : c + 1 < ((g.row row).getD []).length := by omega
    rw [List.drop_eq_getElem_cons hjlen]
    rw [row_list_getElem g row (c + 1) hrow hjlen]
    unfold build_loop
    rw [if_neg (by simp [hcont2]), if_pos hcont1]
    simp [rowText, String.append_empty]
  | succ m ih =>
    intro j t w hj hmid
    have hjc : j ≤ c := by omega
    have hlen := row_list_length g row hrow
    have hjlen : j < ((g.row row).getD []).length := by omega
    rw [List.drop_eq_getElem_cons hjlen]
    rw [row_list_getElem g row j hrow hjlen]
    obtain ⟨hne, hst⟩ := hmid j (le_refl j) hjc
    unfold build_loop
    rw [if_neg (by simp [hst]), if_neg hne]
    rw [ih (j + 1) (t ++ (g.cells j row).1) (w + 1) (by omega)
      (fun k hk1 hk2 => hmid k (by omega) hk2)]
    rw [String.append_assoc]
    simp only [rowText, Prod.mk.injEq]
    exact ⟨trivial, by omega⟩

/-- Claim C6: a run of nonempty same-style cells from column s through c,
followed at c+1 by an empty-text continuation cell of the same style, makes
the fragment starting at s end immediately after the continuation cell: the
scan returns next start c+2, the fragment width counts the continuation
column, and the fragment text is exactly the concatenation of the texts of
columns s..c (the continuation contributes none). -/
theorem double_width_fragment_boundary {Style : Type} [DecidableEq Style]
    (g : CharacterGrid Style) (row s c : Nat) (st : Option Style)
    (hrow : row < g.height) (hc : c + 1 < g.width) (hs : s ≤ c)
    (hcells : ∀ j, s ≤ j → j ≤ c →
      (g.cells j row).1 ≠ "" ∧ (g.cells j row).2 = st)
    (hcont1 : (g.cells (c + 1) row).1 = "")
    (hcont2 : (g.cells (c + 1) row).2 = st) :
    (build_line_fragment g row s).1 = c + 2 ∧
    (build_line_fragment g row s).2.width = (c + 1 - s) + 1 ∧
    (build_line_fragment g row s).2.text = rowText g row s (c + 1 - s) := by
  have hlen := row_list_length g row hrow
  have hslen : s < ((g.row row).getD []).length := by omega
  have hgetD : ((g.row row).getD []).getD s ("", none) =
      ((g.row row).getD [])[s] := List.getD_eq_getElem _ _ hslen
  have hstyle : (((g.row row).getD []).getD s ("", none)).2 = st := by
    rw [hgetD, row_list_getElem g row s hrow hslen]
    exact (hcells s (le_refl s) hs).2
  have hscan := build_loop_scan g row c st hrow hc hcont1 hcont2
    (c + 1 - s) s "" 0 (by omega) (fun k hk1 hk2 => hcells k hk1 hk2)
  have hbl : build_loop (((g.row row).getD []).getD s ("", none)).2
      (((g.row row).getD []).drop s) "" 0 =
      ("" ++ rowText g row s (c + 1 - s), 0 + ((c + 1 - s) + 1)) := by
    rw [hstyle]
    exact hscan
  refine ⟨?_, ?_, ?_⟩
  · show s + (build_loop (((g.row row).getD []).getD s ("", none)).2
        (((g.row row).getD []).drop s) "" 0).2 = c + 2
    rw [hbl]
    show s + (0 + ((c + 1 - s) + 1)) = c + 2
    omega
  · show (build_loop (((g.row row).getD []).getD s ("", none)).2
        (((g.row row).getD []).drop s) "" 0).2 = (c + 1 - s) + 1
    rw [hbl]
    show 0 + ((c + 1 - s) + 1) = (c + 1 - s) + 1
    omega
  · show (build_loop (((g.row row).getD []).getD s ("", none)).2
        (((g.row row).getD []).drop s) "" 0).1 = rowText g row s (c + 1 - s)
    rw [hbl]
    exact String.empty_append _

/-- Witness: the double-width boundary on a concrete row W, continuation, z
(all style 5): the fragment from column 0 ends after the continuation cell at
column 1, spanning width 2 with text W. -/
theorem double_width_fragment_boundary_witness :
    (0 : Nat) <
      (⟨3, 1, fun x _ =>
          (if x = 0 then "W" else if x = 1 then "" else "z", some 5)⟩ :
        CharacterGrid Nat).height ∧
    (build_line_fragment
        (⟨3, 1, fun x _ =>
            (if x = 0 then "W" else if x = 1 then "" else "z", some 5)⟩ :
          CharacterGrid Nat) 0 0).1 = 0 + 2 ∧
    (build_line_fragment
        (⟨3, 1, fun x _ =>
            (if x = 0 then "W" else if x = 1 then "" else "z", some 5)⟩ :
          CharacterGrid Nat) 0 0).2.width = (0 + 1 - 0) + 1 ∧
    (build_line_fragment
        (⟨3, 1, fun x _ =>
            (if x = 0 then "W" else if x = 1 then "" else "z", some 5)⟩ :
          CharacterGrid Nat) 0 0).2.text =
      rowText
        (⟨3, 1, fun x _ =>
            (if x = 0 then "W" else if x = 1 then "" else "z", some 5)⟩ :
          CharacterGrid Nat) 0 0 (0 + 1 - 0) :=
  ⟨by decide,
    (double_width_fragment_boundary _ 0 0 0 (some 5) (by decide) (by decide)
        (le_refl 0)
        (by
          intro j h1 h2
          have hj : j = 0 := by omega
          subst hj
          exact ⟨by decide, rfl⟩)
        (by decide) rfl).1,
    (double_width_fragment_boundary _ 0 0 0 (some 5) (by decide) (by decide)
        (le_refl 0)
        (by
          intro j h1 h2
          have hj : j = 0 := by omega
          subst hj
          exact ⟨by decide, rfl⟩)
        (by decide) rfl).2.1,
    (double_width_fragment_boundary _ 0 0 0 (some 5) (by decide) (by decide)
        (le_refl 0)
        (by
          intro j h1 h2
          have hj : j = 0 := by omega
          subst hj
          exact ⟨by decide, rfl⟩)
        (by decide) rfl).2.2⟩

/-! ## C4: a repeat count of zero is a complete no-op -/

/-- Claim C4: a cell update whose repeat count is 0 leaves every cell of the
grid unchanged and leaves the column cursor (and carried style) unchanged. -/
theorem modify_grid_repeat_zero_noop {Style : Type} (g : CharacterGrid Style)
    (row pos : Nat) (cell : GridLineCell) (ds : Nat → Option Style)
    (prev : Option Style) (h : cell.repeat = some 0) :
    modify_grid g row pos cell ds prev = (g, pos, prev) := by
  simp [modify_grid, h]

/-- Witness: the repeat-0 no-op at a concrete grid and update. -/
theorem modify_grid_repeat_zero_noop_witness :
    (⟨["zz"], none, some 0⟩ : GridLineCell).repeat = some 0 ∧
    modify_grid (⟨3, 1, fun _ _ => (" ", none)⟩ : CharacterGrid Nat) 0 0
        ⟨["zz"], none, some 0⟩ (fun _ => none) (some 9) =
      ((⟨3, 1, fun _ _ => (" ", none)⟩ : CharacterGrid Nat), 0, some 9) :=
  ⟨rfl, modify_grid_repeat_zero_noop _ 0 0 _ _ _ rfl⟩

/-! ## C5: an update with empty text -/

/-- Counterexample to claim C5 as stated: an update with empty text and an
explicit highlight id that resolves to a style writes a cell with empty text
and THAT style, not the unstyled blank the claim describes.  Here the cursor
is in bounds (0 < width), it advances by one, but the written cell carries
style 7. -/
theorem modify_grid_empty_text_counterexample :
    (0 : Nat) < (⟨1, 1, fun _ _ => ("x", none)⟩ : CharacterGrid Nat).width ∧
    (modify_grid (⟨1, 1, fun _ _ => ("x", none)⟩ : CharacterGrid Nat) 0 0
        ⟨[], some 1, none⟩ (fun i => if i = 1 then some 7 else none) none).2.1 =
      0 + 1 ∧
    (modify_grid (⟨1, 1, fun _ _ => ("x", none)⟩ : CharacterGrid Nat) 0 0
        ⟨[], some 1, none⟩ (fun i => if i = 1 then some 7 else none)
        none).1.get_cell 0 0 ≠ some ("", none) := by
  decide

/-- Claim C5 (amended): for an in-bounds cursor position, an update whose
(possibly repeated) text is empty — with a nonzero repeat count if one is
present — advances the column cursor by exactly one and writes a cell with
empty text and the resolved style at that column. -/
theorem modify_grid_empty_text_advance {Style : Type} (g : CharacterGrid Style)
    (row pos : Nat) (cell : GridLineCell) (ds : Nat → Option Style)
    (prev : Option Style) (hpos : pos < g.width) (hrow : row < g.height)
    (htext : cell.text = []) (hrep : cell.repeat ≠ some 0) :
    (modify_grid g row pos cell ds prev).2.1 = pos + 1 ∧
    (modify_grid g row pos cell ds prev).1.get_cell pos row =
      some ("", resolve_style cell.highlight_id ds prev) := by
  rcases hr : cell.repeat with _ | n
  · simp [modify_grid, hr, write_cells, htext,
      CharacterGrid.get_set_cell_self _ _ _ _ hpos hrow]
  · match n, hr with
    | 0, hr => exact absurd hr hrep
    | m + 1, hr =>
      simp [modify_grid, hr, write_cells, htext, repeatText_nil,
        CharacterGrid.get_set_cell_self _ _ _ _ hpos hrow]

/-- Witness: the amended empty-text behavior at a concrete input (an omitted
highlight id, so the carried style some 4 is applied). -/
theorem modify_grid_empty_text_advance_witness :
    (0 : Nat) < (⟨2, 1, fun _ _ => ("x", none)⟩ : CharacterGrid Nat).width ∧
    (modify_grid (⟨2, 1, fun _ _ => ("x", none)⟩ : CharacterGrid Nat) 0 0
        ⟨[], none, none⟩ (fun _ => none) (some 4)).2.1 = 0 + 1 ∧
    (modify_grid (⟨2, 1, fun _ _ => ("x", none)⟩ : CharacterGrid Nat) 0 0
        ⟨[], none, none⟩ (fun _ => none) (some 4)).1.get_cell 0 0 =
      some ("", resolve_style none (fun _ => none) (some 4)) :=
  ⟨by decide,
    (modify_grid_empty_text_advance _ 0 0 _ _ _ (by decide) (by decide) rfl
      (by decide)).1,
    (modify_grid_empty_text_advance _ 0 0 _ _ _ (by decide) (by decide) rfl
      (by decide)).2⟩

/-! ## C7: style resolution and the carried style -/

/-- Claim C7: highlight id 0 resolves to no style; a nonzero id absent from
the style table resolves to no style; an omitted id resolves to the carried
style; and after processing an update with a nonzero repeat count the carried
style is exactly the style just applied. -/
theorem style_resolution_and_carry {Style : Type} (g : CharacterGrid Style)
    (row pos : Nat) (cell : GridLineCell) (ds : Nat → Option Style)
    (prev : Option Style) (id n : Nat) (hid : id ≠ 0) (hds : ds id = none)
    (hrep : cell.repeat = some n) (hn : n ≠ 0) :
    resolve_style (some 0) ds prev = none ∧
    resolve_style (some id) ds prev = none ∧
    resolve_style none ds prev = prev ∧
    (modify_grid g row pos cell ds prev).2.2 =
      resolve_style cell.highlight_id ds prev := by
  refine ⟨rfl, ?_, rfl, ?_⟩
  · match id, hid with
    | m + 1, _ => simpa [resolve_style] using hds
  · match n, hn with
    | m + 1, _ => simp [modify_grid, hrep]

/-- Witness: style resolution and carry at concrete inputs: the table maps
id 5 to nothing, the update repeats twice without naming a style, so the
carried style some 3 is applied and carried on. -/
theorem style_resolution_and_carry_witness :
    (5 : Nat) ≠ 0 ∧ (fun _ : Nat => (none : Option Nat)) 5 = none ∧
    (⟨["a"], none, some 2⟩ : GridLineCell).repeat = some 2 ∧ (2 : Nat) ≠ 0 ∧
    resolve_style (some 0) (fun _ : Nat => (none : Option Nat)) (some 3) = none ∧
    resolve_style (some 5) (fun _ : Nat => (none : Option Nat)) (some 3) = none ∧
    resolve_style none (fun _ : Nat => (none : Option Nat)) (some 3) = some 3 ∧
    (modify_grid (⟨1, 1, fun _ _ => (" ", none)⟩ : CharacterGrid Nat) 0 0
        ⟨["a"], none, some 2⟩ (fun _ => none) (some 3)).2.2 =
      resolve_style (⟨["a"], none, some 2⟩ : GridLineCell).highlight_id
        (fun _ => none) (some 3) := by
  refine ⟨by decide, rfl, rfl, by decide, ?_⟩
  have h := style_resolution_and_carry
    (⟨1, 1, fun _ _ => (" ", none)⟩ : CharacterGrid Nat) 0 0
    ⟨["a"], none, some 2⟩ (fun _ => none) (some 3) 5 2 (by decide) rfl rfl
    (by decide)
  exact ⟨h.1, h.2.1, h.2.2.1, h.2.2.2⟩

/-! ## C8: draw_grid_line redraws below, self, above, bottom to top -/

/-- Claim C8: for an in-bounds row, draw_grid_line applies the updates and
then emits exactly one DrawLine of re-derived fragments per row, for the row
below (when row+1 is within the height), then the row itself, then the row
above (when row > 0), in that bottom-to-top order. -/
theorem draw_grid_line_emission_order {Style : Type} [DecidableEq Style]
    (g : CharacterGrid Style) (row column_start : Nat)
    (cells : List GridLineCell) (ds : Nat → Option Style)
    (h : row < g.height) :
    (draw_grid_line g row column_start cells ds).2 =
      (if row + 1 < g.height then
        [WindowDrawCommand.DrawLine
          (line_fragments (apply_updates g row column_start cells ds).1
            (row + 1))]
      else []) ++
      [WindowDrawCommand.DrawLine
        (line_fragments (apply_updates g row column_start cells ds).1 row)] ++
      (if 0 < row then
        [WindowDrawCommand.DrawLine
          (line_fragments (apply_updates g row column_start cells ds).1
            (row - 1))]
      else []) := by
  unfold draw_grid_line
  rw [if_pos h]
  dsimp only
  by_cases h1 : row + 1 < g.height
  · rw [if_pos (show row < g.height - 1 by omega), if_pos h1]
  · rw [if_neg (show ¬row < g.height - 1 by omega), if_neg h1]

/-- Witness: the emission order at row 1 of a concrete 1 x 3 grid with no
updates: three DrawLine commands, for rows 2, 1, 0 in that order. -/
theorem draw_grid_line_emission_order_witness :
    (1 : Nat) <
      (⟨1, 3, fun _ y => (if y = 0 then "a" else "b", none)⟩ :
        CharacterGrid Nat).height ∧
    (draw_grid_line
        (⟨1, 3, fun _ y => (if y = 0 then "a" else "b", none)⟩ :
          CharacterGrid Nat) 1 0 [] (fun _ => none)).2 =
      (if 1 + 1 <
          (⟨1, 3, fun _ y => (if y = 0 then "a" else "b", none)⟩ :
            CharacterGrid Nat).height then
        [WindowDrawCommand.DrawLine
          (line_fragments
            (apply_updates
              (⟨1, 3, fun _ y => (if y = 0 then "a" else "b", none)⟩ :
                CharacterGrid Nat) 1 0 [] (fun _ => none)).1 (1 + 1))]
      else []) ++
      [WindowDrawCommand.DrawLine
        (line_fragments
          (apply_updates
            (⟨1, 3, fun _ y => (if y = 0 then "a" else "b", none)⟩ :
              CharacterGrid Nat) 1 0 [] (fun _ => none)).1 1)] ++
      (if 0 < 1 then
        [WindowDrawCommand.DrawLine
          (line_fragments
            (apply_updates
              (⟨1, 3, fun _ y => (if y = 0 then "a" else "b", none)⟩ :
                CharacterGrid Nat) 1 0 [] (fun _ => none)).1 (1 - 1))]
      else []) :=
  ⟨by decide,
    draw_grid_line_emission_order _ 1 0 [] (fun _ => none) (by decide)⟩

/-! ## C9: out-of-bounds draw requests are dropped -/

/-- Claim C9: a draw request for a row at or beyond the grid height mutates
no cell and emits nothing; the call returns normally. -/
theorem draw_grid_line_out_of_bounds_noop {Style : Type} [DecidableEq Style]
    (g : CharacterGrid Style) (row column_start : Nat)
    (cells : List GridLineCell) (ds : Nat → Option Style)
    (h : g.height ≤ row) :
    draw_grid_line g row column_start cells ds = (g, []) := by
  unfold draw_grid_line
  rw [if_neg (by omega)]

/-- Witness: an out-of-bounds draw request on a concrete grid. -/
theorem draw_grid_line_out_of_bounds_noop_witness :
    (⟨2, 1, fun _ _ => (" ", none)⟩ : CharacterGrid Nat).height ≤ 5 ∧
    draw_grid_line (⟨2, 1, fun _ _ => (" ", none)⟩ : CharacterGrid Nat) 5 0
        [⟨["a"], none, none⟩] (fun _ => none) =
      ((⟨2, 1, fun _ _ => (" ", none)⟩ : CharacterGrid Nat), []) :=
  ⟨by decide,
    draw_grid_line_out_of_bounds_noop _ 5 0 [⟨["a"], none, none⟩] _ (by decide)⟩

/-! ## C10: the cursor cell query -/

/-- Claim C10: querying the cursor cell out of bounds yields a single space
with no style (no failure), and the double-width flag is true exactly when
the cell at (x+1, y) exists in the grid and has empty text. -/
theorem get_cursor_grid_cell_spec {Style : Type} (g : CharacterGrid Style)
    (wl wt : Nat) :
    (g.width ≤ wl ∨ g.height ≤ wt →
      (get_cursor_grid_cell g wl wt).1 = " " ∧
      (get_cursor_grid_cell g wl wt).2.1 = none) ∧
    ((get_cursor_grid_cell g wl wt).2.2 = true ↔
      wl + 1 < g.width ∧ wt < g.height ∧ (g.cells (wl + 1) wt).1 = "") := by
  constructor
  · intro h
    have hob : ¬(wl < g.width ∧ wt < g.height) := by omega
    simp [get_cursor_grid_cell, CharacterGrid.get_cell, hob]
  · by_cases h2 : wl + 1 < g.width ∧ wt < g.height
    · simp [get_cursor_grid_cell, CharacterGrid.get_cell, h2]
    · simp only [get_cursor_grid_cell, CharacterGrid.get_cell, if_neg h2]
      constructor
      · intro hf
        exact absurd hf (by simp)
      · intro hf
        exact absurd ⟨hf.1, hf.2.1⟩ h2

/-- Witness: the cursor cell query out of bounds on a concrete grid. -/
theorem get_cursor_grid_cell_spec_witness :
    ((⟨2, 1, fun x _ => (if x = 0 then "W" else "", some 5)⟩ :
        CharacterGrid Nat).width ≤ 7 ∨
      (⟨2, 1, fun x _ => (if x = 0 then "W" else "", some 5)⟩ :
        CharacterGrid Nat).height ≤ 0) ∧
    (get_cursor_grid_cell
        (⟨2, 1, fun x _ => (if x = 0 then "W" else "", some 5)⟩ :
          CharacterGrid Nat) 7 0).1 = " " ∧
    (get_cursor_grid_cell
        (⟨2, 1, fun x _ => (if x = 0 then "W" else "", some 5)⟩ :
          CharacterGrid Nat) 7 0).2.1 = none :=
  ⟨Or.inl (by decide),
    (get_cursor_grid_cell_spec _ 7 0).1 (Or.inl (by decide))⟩

/-! ## Scroll lemmas: iteration ranges -/

theorem mem_intRange {a b z : Int} : z ∈ intRange a b ↔ a ≤ z ∧ z < b := by
  simp only [intRange, List.mem_map, List.mem_range]
  constructor
  · rintro ⟨i, hi, rfl⟩
    omega
  · intro h
    exact ⟨(z - a).toNat, by omega, by omega⟩

theorem pairwise_intRange (a b : Int) : (intRange a b).Pairwise (· < ·) := by
  unfold intRange
  refine List.Pairwise.map _ ?_ (List.pairwise_lt_range _)
  intro i j hij
  omega

theorem mem_yIter {top bottom : Nat} {rows y : Int} :
    y ∈ yIter top bottom rows ↔
      (top : Int) + max rows 0 ≤ y ∧ y < (bottom : Int) + min rows 0 := by
  unfold yIter
  by_cases hr : 0 < rows
  · rw [if_pos hr, mem_intRange]
    omega
  · rw [if_neg hr, List.mem_reverse, mem_intRange]
    omega

theorem mem_xIter {left right : Nat} {cols x : Int} :
    x ∈ xIter left right cols ↔
      (left : Int) + max cols 0 ≤ x ∧ x < (right : Int) + min cols 0 := by
  unfold xIter
  by_cases hc : 0 < cols
  · rw [if_pos hc, mem_intRange]
    omega
  · rw [if_neg hc, List.mem_reverse, mem_intRange]
    omega

theorem pairwise_yIter (top bottom : Nat) (rows : Int) :
    (yIter top bottom rows).Pairwise
      (fun a b => (0 < rows ∧ a < b) ∨ (rows ≤ 0 ∧ b < a)) := by
  unfold yIter
  by_cases hr : 0 < rows
  · rw [if_pos hr]
    exact (pairwise_intRange _ _).imp fun h => Or.inl ⟨hr, h⟩
  · rw [if_neg hr, List.pairwise_reverse]
    exact (pairwise_intRange _ _).imp fun h => Or.inr ⟨by omega, h⟩

theorem pairwise_xIter (left right : Nat) (cols : Int) :
    (xIter left right cols).Pairwise
      (fun a b => (0 < cols ∧ a < b) ∨ (cols ≤ 0 ∧ b < a)) := by
  unfold xIter
  by_cases hc : 0 < cols
  · rw [if_pos hc]
    exact (pairwise_intRange _ _).imp fun h => Or.inl ⟨hc, h⟩
  · rw [if_neg hc, List.pairwise_reverse]
    exact (pairwise_intRange _ _).imp fun h => Or.inr ⟨by omega, h⟩

/-! ## Scroll lemmas: dimension preservation and flattening -/

theorem scrollStep_width {Style : Type} (rows cols : Int)
    (g : CharacterGrid Style) (p : Int × Int) :
    (scrollStep rows cols g p).width = g.width := by
  unfold scrollStep
  split <;> simp

theorem scrollStep_height {Style : Type} (rows cols : Int)
    (g : CharacterGrid Style) (p : Int × Int) :
    (scrollStep rows cols g p).height = g.height := by
  unfold scrollStep
  split <;> simp

theorem pureStep_width {Style : Type} (gr : CharacterGrid Style)
    (rows cols : Int) (gw : CharacterGrid Style) (p : Int × Int) :
    (pureStep gr rows cols gw p).width = gw.width := by
  unfold pureStep
  split <;> simp

theorem pureStep_height {Style : Type} (gr : CharacterGrid Style)
    (rows cols : Int) (gw : CharacterGrid Style) (p : Int × Int) :
    (pureStep gr rows cols gw p).height = gw.height := by
  unfold pureStep
  split <;> simp

theorem foldl_scrollStep_width {Style : Type} (rows cols : Int) :
    ∀ (ps : List (Int × Int)) (g : CharacterGrid Style),
      (ps.foldl (scrollStep rows cols) g).width = g.width
  | [], _ => rfl
  | p :: ps, g => by
    rw [List.foldl_cons, foldl_scrollStep_width rows cols ps _,
      scrollStep_width]

theorem foldl_scrollStep_height {Style : Type} (rows cols : Int) :
    ∀ (ps : List (Int × Int)) (g : CharacterGrid Style),
      (ps.foldl (scrollStep rows cols) g).height = g.height
  | [], _ => rfl
  | p :: ps, g => by
    rw [List.foldl_cons, foldl_scrollStep_height rows cols ps _,
      scrollStep_height]

theorem pureFold_width {Style : Type} (gr : CharacterGrid Style)
    (rows cols : Int) :
    ∀ (ps : List (Int × Int)) (gw : CharacterGrid Style),
      (pureFold gr rows cols ps gw).width = gw.width
  | [], _ => rfl
  | p :: ps, gw => by
    have h := pureFold_width gr rows cols ps (pureStep gr rows cols gw p)
    unfold pureFold at h ⊢
    rw [List.foldl_cons, h, pureStep_width]

theorem pureFold_height {Style : Type} (gr : CharacterGrid Style)
    (rows cols : Int) :
    ∀ (ps : List (Int × Int)) (gw : CharacterGrid Style),
      (pureFold gr rows cols ps gw).height = gw.height
  | [], _ => rfl
  | p :: ps, gw => by
    have h := pureFold_height gr rows cols ps (pureStep gr rows cols gw p)
    unfold pureFold at h ⊢
    rw [List.foldl_cons, h, pureStep_height]

theorem scroll_nested_eq {Style : Type} (rows cols : Int) (left right : Nat)
    (H : Nat) :
    ∀ (ys : List Int) (g : CharacterGrid Style), g.height = H →
      ys.foldl
        (fun g y =>
          if 0 ≤ y - rows ∧ y - rows < (g.height : Int) then
            (xIter left right cols).foldl
              (fun g x => scrollStep rows cols g (x, y)) g
          else g) g =
      ((ys.filter fun y =>
          decide (0 ≤ y - rows ∧ y - rows < (H : Int))).flatMap
        fun y => (xIter left right cols).map fun x => (x, y)).foldl
        (scrollStep rows cols) g := by
  intro ys
  induction ys with
  | nil =>
    intro g _
    rfl
  | cons y ys ih =>
    intro g hg
    rw [List.foldl_cons, List.filter_cons]
    by_cases hc : 0 ≤ y - rows ∧ y - rows < (H : Int)
    · rw [decide_eq_true hc]
      simp only [if_pos]
      rw [List.flatMap_cons, List.foldl_append, List.foldl_map]
      have hg2 : ((xIter left right cols).foldl
          (fun g x => scrollStep rows cols g (x, y)) g).height = H := by
        rw [← List.foldl_map (fun x => ((x : Int), y)) (scrollStep rows cols)]
        rw [foldl_scrollStep_height]
        exact hg
      rw [← ih _ hg2]
      rw [if_pos (by rw [hg]; exact hc)]
    · rw [decide_eq_false hc]
      simp only [Bool.false_eq_true, if_false]
      rw [if_neg (by rw [hg]; exact hc)]
      exact ih g hg

theorem scroll_region_eq_foldl {Style : Type} (g : CharacterGrid Style)
    (top bottom left right : Nat) (rows cols : Int) :
    scroll_region g top bottom left right rows cols =
      (scrollPairs top bottom left right rows cols g.height).foldl
        (scrollStep rows cols) g := by
  unfold scroll_region scrollPairs
  exact scroll_nested_eq rows cols left right g.height (yIter top bottom rows)
    g rfl

theorem scroll_region_width {Style : Type} (g : CharacterGrid Style)
    (top bottom left right : Nat) (rows cols : Int) :
    (scroll_region g top bottom left right rows cols).width = g.width := by
  rw [scroll_region_eq_foldl, foldl_scrollStep_width]

theorem scroll_region_height {Style : Type} (g : CharacterGrid Style)
    (top bottom left right : Nat) (rows cols : Int) :
    (scroll_region g top bottom left right rows cols).height = g.height := by
  rw [scroll_region_eq_foldl, foldl_scrollStep_height]

/-! ## Scroll lemmas: the in-place fold reads no cell it has written -/

theorem scrollStep_eq_pureStep {Style : Type} (rows cols : Int)
    (g : CharacterGrid Style) (p : Int × Int) :
    scrollStep rows cols g p = pureStep g rows cols g p := rfl

theorem pureStep_get_untouched {Style : Type} (gr : CharacterGrid Style)
    (rows cols : Int) (gw : CharacterGrid Style) (p : Int × Int) (a b : Nat)
    (h : writeCoord rows cols p ≠ (a, b)) :
    (pureStep gr rows cols gw p).get_cell a b = gw.get_cell a b := by
  unfold pureStep
  split
  · apply CharacterGrid.get_set_cell_ne
    intro hc
    exact h (by rw [writeCoord, hc.1, hc.2])
  · rfl

theorem scrollStep_get_untouched {Style : Type} (rows cols : Int)
    (g : CharacterGrid Style) (p : Int × Int) (a b : Nat)
    (h : writeCoord rows cols p ≠ (a, b)) :
    (scrollStep rows cols g p).get_cell a b = g.get_cell a b := by
  rw [scrollStep_eq_pureStep]
  exact pureStep_get_untouched g rows cols g p a b h

theorem pureStep_congr_read {Style : Type} (gr1 gr2 : CharacterGrid Style)
    (rows cols : Int) (gw : CharacterGrid Style) (p : Int × Int)
    (h : gr1.get_cell p.1.toNat p.2.toNat = gr2.get_cell p.1.toNat p.2.toNat) :
    pureStep gr1 rows cols gw p = pureStep gr2 rows cols gw p := by
  unfold pureStep
  rw [h]

theorem pureFold_congr_reads {Style : Type} (rows cols : Int) :
    ∀ (ps : List (Int × Int)) (gr1 gr2 gw : CharacterGrid Style),
      (∀ p ∈ ps,
        gr1.get_cell p.1.toNat p.2.toNat = gr2.get_cell p.1.toNat p.2.toNat) →
      pureFold gr1 rows cols ps gw = pureFold gr2 rows cols ps gw
  | [], _, _, _, _ => rfl
  | p :: ps, gr1, gr2, gw, h => by
    unfold pureFold
    rw [List.foldl_cons, pureStep_congr_read gr1 gr2 rows cols gw p
      (h p (by simp))]
    exact pureFold_congr_reads rows cols ps gr1 gr2 _
      fun q hq => h q (by simp [hq])

theorem foldl_scrollStep_eq_pureFold {Style : Type} (rows cols : Int) :
    ∀ (ps : List (Int × Int)),
      ps.Pairwise (fun p q => writeCoord rows cols p ≠ readCoord q) →
      ∀ g : CharacterGrid Style,
        ps.foldl (scrollStep rows cols) g = pureFold g rows cols ps g
  | [], _, g => rfl
  | p :: ps, h, g => by
    obtain ⟨hhead, htail⟩ := List.pairwise_cons.mp h
    rw [List.foldl_cons,
      foldl_scrollStep_eq_pureFold rows cols ps htail (scrollStep rows cols g p)]
    have hreads : ∀ q ∈ ps,
        (scrollStep rows cols g p).get_cell q.1.toNat q.2.toNat =
          g.get_cell q.1.toNat q.2.toNat := by
      intro q hq
      exact scrollStep_get_untouched rows cols g p q.1.toNat q.2.toNat
        (hhead q hq)
    rw [pureFold_congr_reads rows cols ps (scrollStep rows cols g p) g
      (scrollStep rows cols g p) hreads]
    rfl

/-! ## Scroll lemmas: reading the result of the snapshot fold -/

theorem pureFold_get_of_not_written {Style : Type} (gr : CharacterGrid Style)
    (rows cols : Int) :
    ∀ (ps : List (Int × Int)) (gw : CharacterGrid Style) (a b : Nat),
      (∀ p ∈ ps, writeCoord rows cols p ≠ (a, b)) →
      (pureFold gr rows cols ps gw).get_cell a b = gw.get_cell a b
  | [], _, _, _, _ => rfl
  | p :: ps, gw, a, b, h => by
    unfold pureFold
    rw [List.foldl_cons]
    have hrec := pureFold_get_of_not_written gr rows cols ps
      (pureStep gr rows cols gw p) a b fun q hq => h q (by simp [hq])
    unfold pureFold at hrec
    rw [hrec]
    exact pureStep_get_untouched gr rows cols gw p a b (h p (by simp))

theorem pureFold_get_of_mem {Style : Type} (gr : CharacterGrid Style)
    (rows cols : Int) :
    ∀ (ps : List (Int × Int)) (gw : CharacterGrid Style) (p : Int × Int)
      (v : Cell Style), p ∈ ps →
      ps.Pairwise (fun p q => writeCoord rows cols p ≠ writeCoord rows cols q) →
      gr.get_cell p.1.toNat p.2.toNat = some v →
      (p.1 - cols).toNat < gw.width → (p.2 - rows).toNat < gw.height →
      (pureFold gr rows cols ps gw).get_cell (p.1 - cols).toNat
        (p.2 - rows).toNat = some v
  | [], _, _, _, hmem, _, _, _, _ => absurd hmem (List.not_mem_nil _)
  | q :: ps, gw, p, v, hmem, hpw, hread, hbx, hby => by
    obtain ⟨hhead, htail⟩ := List.pairwise_cons.mp hpw
    unfold pureFold
    rw [List.foldl_cons]
    rcases List.mem_cons.mp hmem with rfl | hmem'
    · have hstep : pureStep gr rows cols gw p =
          gw.set_cell (p.1 - cols).toNat (p.2 - rows).toNat v := by
        unfold pureStep
        rw [hread]
      have hnw : ∀ r ∈ ps,
          writeCoord rows cols r ≠
            ((p.1 - cols).toNat, (p.2 - rows).toNat) := by
        intro r hr
        exact fun hc => (hhead r hr) (by rw [hc]; rfl)
      have hrec := pureFold_get_of_not_written gr rows cols ps
        (pureStep gr rows cols gw p) (p.1 - cols).toNat (p.2 - rows).toNat hnw
      unfold pureFold at hrec
      rw [hrec, hstep]
      exact CharacterGrid.get_set_cell_self gw _ _ v hbx hby
    · have hrec := pureFold_get_of_mem gr rows cols ps
        (pureStep gr rows cols gw q) p v hmem' htail hread
        (by rw [pureStep_width]; exact hbx)
        (by rw [pureStep_height]; exact hby)
      unfold pureFold at hrec
      exact hrec

/-! ## Scroll lemmas: the visited pairs, their order discipline -/

theorem mem_scrollPairs {top bottom left right : Nat} {rows cols : Int}
    {H : Nat} {x y : Int} :
    (x, y) ∈ scrollPairs top bottom left right rows cols H ↔
      y ∈ yIter top bottom rows ∧ 0 ≤ y - rows ∧ y - rows < (H : Int) ∧
        x ∈ xIter left right cols := by
  unfold scrollPairs
  simp only [List.mem_flatMap, List.mem_filter, List.mem_map,
    decide_eq_true_eq, Prod.mk.injEq]
  constructor
  · rintro ⟨y2, ⟨hy, hc1, hc2⟩, x2, hx, rfl, rfl⟩
    exact ⟨hy, hc1, hc2, hx⟩
  · rintro ⟨hy, h1, h2, hx⟩
    exact ⟨y, ⟨hy, h1, h2⟩, x, hx, rfl, rfl⟩

theorem pairwise_flatMap_pairs {R : Int × Int → Int × Int → Prop} :
    ∀ (ys xs : List Int),
      (∀ y ∈ ys, (xs.map fun x => (x, y)).Pairwise R) →
      ys.Pairwise (fun y1 y2 => ∀ x1 ∈ xs, ∀ x2 ∈ xs, R (x1, y1) (x2, y2)) →
      (ys.flatMap fun y => xs.map fun x => (x, y)).Pairwise R
  | [], _, _, _ => List.Pairwise.nil
  | y :: ys, xs, hx, hy => by
    rw [List.flatMap_cons, List.pairwise_append]
    obtain ⟨hyh, hyt⟩ := List.pairwise_cons.mp hy
    refine ⟨hx y (by simp),
      pairwise_flatMap_pairs ys xs (fun y2 h => hx y2 (by simp [h])) hyt, ?_⟩
    intro p hp q hq
    obtain ⟨x1, hx1, rfl⟩ := List.mem_map.mp hp
    obtain ⟨y2, hy2, hq2⟩ := List.mem_flatMap.mp hq
    obtain ⟨x2, hx2, rfl⟩ := List.mem_map.mp hq2
    exact hyh y2 hy2 x1 hx1 x2 hx2

theorem scrollPairs_nonneg_x {left right : Nat} {cols x : Int}
    (hx : x ∈ xIter left right cols) : 0 ≤ x ∧ 0 ≤ x - cols := by
  have := mem_xIter.mp hx
  omega

theorem scrollPairs_nonneg_y {top bottom : Nat} {rows y : Int}
    (hy : y ∈ yIter top bottom rows) : 0 ≤ y := by
  have := mem_yIter.mp hy
  omega

theorem scrollPairs_write_ne_read (top bottom left right : Nat)
    (rows cols : Int) (H : Nat) :
    (scrollPairs top bottom left right rows cols H).Pairwise
      (fun p q => writeCoord rows cols p ≠ readCoord q) := by
  unfold scrollPairs
  apply pairwise_flatMap_pairs
  · intro y hy
    obtain ⟨hymem, hyc⟩ := List.mem_filter.mp hy
    have hyb := mem_yIter.mp hymem
    have hyc2 := of_decide_eq_true hyc
    rw [List.pairwise_map]
    refine (pairwise_xIter left right cols).imp_of_mem ?_
    intro x1 x2 hx1 hx2 hord
    have hb1 := mem_xIter.mp hx1
    have hb2 := mem_xIter.mp hx2
    simp only [writeCoord, readCoord, Ne, Prod.mk.injEq, not_and]
    intro h1 h2
    omega
  · refine ((pairwise_yIter top bottom rows).filter _).imp_of_mem ?_
    intro y1 y2 hy1 hy2 hord x1 hx1 x2 hx2
    obtain ⟨hy1m, hy1c⟩ := List.mem_filter.mp hy1
    obtain ⟨hy2m, hy2c⟩ := List.mem_filter.mp hy2
    have hc1 := of_decide_eq_true hy1c
    have hc2 := of_decide_eq_true hy2c
    have hb1 := mem_yIter.mp hy1m
    have hb2 := mem_yIter.mp hy2m
    simp only [writeCoord, readCoord, Ne, Prod.mk.injEq, not_and]
    intro h1 h2
    omega

theorem scrollPairs_write_ne_write (top bottom left right : Nat)
    (rows cols : Int) (H : Nat) :
    (scrollPairs top bottom left right rows cols H).Pairwise
      (fun p q => writeCoord rows cols p ≠ writeCoord rows cols q) := by
  unfold scrollPairs
  apply pairwise_flatMap_pairs
  · intro y hy
    obtain ⟨hymem, hyc⟩ := List.mem_filter.mp hy
    have hyc2 := of_decide_eq_true hyc
    rw [List.pairwise_map]
    refine (pairwise_xIter left right cols).imp_of_mem ?_
    intro x1 x2 hx1 hx2 hord
    have hb1 := mem_xIter.mp hx1
    have hb2 := mem_xIter.mp hx2
    simp only [writeCoord, readCoord, Ne, Prod.mk.injEq, not_and]
    intro h1 h2
    omega
  · refine ((pairwise_yIter top bottom rows).filter _).imp_of_mem ?_
    intro y1 y2 hy1 hy2 hord x1 hx1 x2 hx2
    obtain ⟨hy1m, hy1c⟩ := List.mem_filter.mp hy1
    obtain ⟨hy2m, hy2c⟩ := List.mem_filter.mp hy2
    have hc1 := of_decide_eq_true hy1c
    have hc2 := of_decide_eq_true hy2c
    simp only [writeCoord, readCoord, Ne, Prod.mk.injEq, not_and]
    intro h1 h2
    omega

/-! ## Scroll lemmas: the value a scroll writes at each destination -/

theorem scroll_region_get {Style : Type} (g : CharacterGrid Style)
    (top bottom left right : Nat) (rows cols : Int) (sx sy : Int)
    (v : Cell Style)
    (hsy : sy ∈ yIter top bottom rows)
    (hfy : 0 ≤ sy - rows ∧ sy - rows < (g.height : Int))
    (hsx : sx ∈ xIter left right cols)
    (hread : g.get_cell sx.toNat sy.toNat = some v)
    (hbx : (sx - cols).toNat < g.width) :
    (scroll_region g top bottom left right rows cols).get_cell
      (sx - cols).toNat (sy - rows).toNat = some v := by
  rw [scroll_region_eq_foldl]
  rw [foldl_scrollStep_eq_pureFold rows cols _
    (scrollPairs_write_ne_read top bottom left right rows cols g.height)]
  exact pureFold_get_of_mem g rows cols _ g (sx, sy) v
    (mem_scrollPairs.mpr ⟨hsy, hfy.1, hfy.2, hsx⟩)
    (scrollPairs_write_ne_write top bottom left right rows cols g.height)
    hread hbx (by omega)

/-! ## C1: the scroll round-trip -/

/-- Counterexample to claim C1 as stated: on a 1 x 2 grid with region
[0,3) x [0,1) and deltas (-1, 0), the coordinate (0, 1) and its destinations
under both moves stay within the REGION's bounds throughout (its first-move
destination is (0, 2), inside the region rows [0,3)), yet its value is not
restored: that destination lies outside the GRID, so the first move drops the
write and the second move cannot bring the value back. -/
theorem scroll_region_roundtrip_region_only_fails :
    ((0 : Int) ≤ (1 : Int) ∧ (1 : Int) < 3 ∧ (0 : Int) ≤ 0 ∧ (0 : Int) < 1 ∧
      (0 : Int) ≤ (1 : Int) - (-1) ∧ (1 : Int) - (-1) < 3 ∧
      (0 : Int) ≤ (0 : Int) - 0 ∧ (0 : Int) - 0 < 1) ∧
    (scroll_region
        (scroll_region
          (⟨1, 2, fun _ y => (if y = 0 then "a" else "b", none)⟩ :
            CharacterGrid Nat) 0 3 0 1 (-1) 0) 0 3 0 1 1 0).get_cell 0 1 ≠
      (⟨1, 2, fun _ y => (if y = 0 then "a" else "b", none)⟩ :
        CharacterGrid Nat).get_cell 0 1 := by
  decide

/-- Claim C1 (amended): scrolling a region by (rows, cols) and then by
(-rows, -cols) restores the original cell value at every coordinate (x, y)
such that both (x, y) and its first-move destination (x - cols, y - rows)
lie within the region's bounds AND within the grid's bounds.  (As stated, the
claim omits the grid-bounds condition on the intermediate destination, and
fails when the region overhangs the grid.) -/
theorem scroll_region_roundtrip {Style : Type} (g : CharacterGrid Style)
    (top bottom left right : Nat) (rows cols : Int) (x y : Nat)
    (hx : x < g.width) (hy : y < g.height)
    (hreg1 : top ≤ y) (hreg2 : y < bottom) (hreg3 : left ≤ x)
    (hreg4 : x < right)
    (hd1 : (top : Int) ≤ (y : Int) - rows) (hd2 : (y : Int) - rows < bottom)
    (hd3 : (left : Int) ≤ (x : Int) - cols) (hd4 : (x : Int) - cols < right)
    (hg1 : (y : Int) - rows < (g.height : Int))
    (hg2 : (x : Int) - cols < (g.width : Int)) :
    (scroll_region
        (scroll_region g top bottom left right rows cols)
        top bottom left right (-rows) (-cols)).get_cell x y =
      g.get_cell x y := by
  have hstep1 : (scroll_region g top bottom left right rows cols).get_cell
      ((x : Int) - cols).toNat ((y : Int) - rows).toNat =
      some (g.cells x y) := by
    apply scroll_region_get g top bottom left right rows cols (x : Int)
      (y : Int) (g.cells x y)
    · exact mem_yIter.mpr (by omega)
    · exact ⟨by omega, hg1⟩
    · exact mem_xIter.mpr (by omega)
    · rw [show ((x : Int)).toNat = x by omega, show ((y : Int)).toNat = y by omega]
      exact CharacterGrid.get_cell_eq_some g x y hx hy
    · omega
  have hH := scroll_region_height g top bottom left right rows cols
  have hW := scroll_region_width g top bottom left right rows cols
  have hstep2 : (scroll_region
      (scroll_region g top bottom left right rows cols)
      top bottom left right (-rows) (-cols)).get_cell
      (((x : Int) - cols) - (-cols)).toNat
      (((y : Int) - rows) - (-rows)).toNat = some (g.cells x y) := by
    apply scroll_region_get _ top bottom left right (-rows) (-cols)
      ((x : Int) - cols) ((y : Int) - rows) (g.cells x y)
    · exact mem_yIter.mpr (by omega)
    · constructor
      · omega
      · rw [hH]
        omega
    · exact mem_xIter.mpr (by omega)
    · exact hstep1
    · rw [hW]
      omega
  rw [show (((x : Int) - cols) - (-cols)).toNat = x by omega,
    show (((y : Int) - rows) - (-rows)).toNat = y by omega] at hstep2
  rw [hstep2, CharacterGrid.get_cell_eq_some g x y hx hy]

/-- Witness: the amended round-trip on a concrete 1 x 3 grid, region
[0,3) x [0,1), deltas (1, 0), at coordinate (0, 1). -/
theorem scroll_region_roundtrip_witness :
    ((0 : Nat) < (⟨1, 3, fun _ y =>
        (if y = 0 then "p" else if y = 1 then "q" else "r", none)⟩ :
        CharacterGrid Nat).width ∧
      (1 : Nat) < (⟨1, 3, fun _ y =>
        (if y = 0 then "p" else if y = 1 then "q" else "r", none)⟩ :
        CharacterGrid Nat).height ∧
      (0 : Nat) ≤ 1 ∧ (1 : Nat) < 3 ∧ (0 : Nat) ≤ 0 ∧ (0 : Nat) < 1 ∧
      (0 : Int) ≤ (1 : Int) - 1 ∧ (1 : Int) - 1 < 3 ∧
      (0 : Int) ≤ (0 : Int) - 0 ∧ (0 : Int) - 0 < 1) ∧
    (scroll_region
        (scroll_region
          (⟨1, 3, fun _ y =>
              (if y = 0 then "p" else if y = 1 then "q" else "r", none)⟩ :
            CharacterGrid Nat) 0 3 0 1 1 0) 0 3 0 1 (-1) (-0)).get_cell 0 1 =
      (⟨1, 3, fun _ y =>
          (if y = 0 then "p" else if y = 1 then "q" else "r", none)⟩ :
        CharacterGrid Nat).get_cell 0 1 :=
  ⟨by decide,
    scroll_region_roundtrip _ 0 3 0 1 1 0 0 1 (by decide) (by decide)
      (by decide) (by decide) (by decide) (by decide) (by decide) (by decide)
      (by decide) (by decide) (by decide) (by decide)⟩

end Neovide
